import Mathlib

/-!
Shallow embedding of the FROG measure-script subsystem
(`frog/gui/measure_script/script.py`, `frog/gui/measure_script/script_edit_dialog.py`)
and of the device base layer (`frog/hardware/device.py`), together with proofs
about the embedded definitions.

Conventions of the embedding:
* Python `int` values become `Int`; Python `float` angle values are modelled as
  exact rationals `ℚ` (only order comparisons against small decimal constants
  are performed on them, where floats and rationals agree).
* Mutable objects become explicit state records; methods become functions from
  state to state paired with the list of observable pubsub/GUI effects they
  emit, in emission order.
* Raised Python exceptions become `Except` error values.
-/

/-- An angle taken from a measure script: either an explicit number of degrees
or the name of a preset angle (`Measurement.angle: float | str`). -/
inductive AngleValue where
  | num (degrees : ℚ)
  | preset (name : String)
  deriving DecidableEq

/-- `Measurement` from `script.py`: a single step, i.e. an angle plus the
number of times to record a measurement there. -/
structure Measurement where
  angle : AngleValue
  measurements : Int
  deriving DecidableEq

/-- `Script` from `script.py`: the repeat count and the sequence of
measurements.  The `path` and `runner` attributes are GUI bookkeeping with no
bearing on any claim and are omitted. -/
structure Script where
  repeats : Int
  sequence : List Measurement
  deriving DecidableEq

/-- The mutable state of `ScriptIterator`: the not-yet-yielded suffix of the
current pass (`_sequence_iter`) and the `current_repeat` counter.  The `script`
attribute is passed separately to the functions below. -/
structure ScriptIterator where
  remaining : List Measurement
  current_repeat : Int
  deriving DecidableEq

/-- `ScriptIterator.__init__`: a fresh iterator over the whole sequence with
`current_repeat = 0`. -/
def ScriptIterator.ofScript (sc : Script) : ScriptIterator :=
  ⟨sc.sequence, 0⟩

/-- `ScriptIterator.__next__`.  Returns the yielded measurement (or `none` for
`StopIteration`) together with the iterator state after the call.

The source pops the next element of the current pass; on exhaustion of a pass
it sets `current_repeat = min(repeats, current_repeat + 1)`, raises
`StopIteration` if that equals `repeats`, and otherwise restarts the pass and
recurses.  When the restarted pass is itself empty (empty `sequence`) that
recursion repeats, bumping `current_repeat` once per call, until the counter
reaches `repeats` and `StopIteration` is raised; the final branch below
returns that terminal outcome directly so that the function is structurally
recursive-free. -/
def ScriptIterator.next (sc : Script) (it : ScriptIterator) :
    Option Measurement × ScriptIterator :=
  match it with
  | ⟨m :: rest, cr⟩ => (some m, ⟨rest, cr⟩)
  | ⟨[], cr⟩ =>
    let cr2 := min sc.repeats (cr + 1)
    if cr2 = sc.repeats then (none, ⟨[], cr2⟩)
    else
      match sc.sequence with
      | m :: rest => (some m, ⟨rest, cr2⟩)
      | [] => (none, ⟨[], sc.repeats⟩)

/-- Repeatedly call `ScriptIterator.next`, collecting the yielded measurements
in order.  `fuel` bounds the number of calls; every claim instantiates it
large enough to reach exhaustion. -/
def ScriptIterator.toListFuel (sc : Script) : Nat → ScriptIterator → List Measurement
  | 0, _ => []
  | fuel + 1, it =>
    match ScriptIterator.next sc it with
    | (some m, it2) => m :: ScriptIterator.toListFuel sc fuel it2
    | (none, _) => []

/-- Concatenation of `n` copies of a list, in order. -/
def repConcat (n : Nat) (l : List Measurement) : List Measurement :=
  match n with
  | 0 => []
  | n + 1 => l ++ repConcat n l

theorem repConcat_length (n : Nat) (l : List Measurement) :
    (repConcat n l).length = n * l.length := by
  induction n with
  | zero => simp [repConcat]
  | succ n ih => simp [repConcat, ih, Nat.succ_mul]; omega

theorem ScriptIterator.next_cons (sc : Script) (m : Measurement)
    (rest : List Measurement) (cr : Int) :
    ScriptIterator.next sc ⟨m :: rest, cr⟩ = (some m, ⟨rest, cr⟩) := rfl

theorem ScriptIterator.next_nil_last (sc : Script) (cr : Int)
    (h : cr + 1 = sc.repeats) :
    ScriptIterator.next sc ⟨[], cr⟩ = (none, ⟨[], sc.repeats⟩) := by
  have hmin : min sc.repeats (cr + 1) = sc.repeats := by
    rw [h, min_self]
  simp [ScriptIterator.next, hmin]

theorem ScriptIterator.next_nil_wrap (sc : Script) (cr : Int) (m : Measurement)
    (rest : List Measurement) (hlt : cr + 1 < sc.repeats)
    (hseq : sc.sequence = m :: rest) :
    ScriptIterator.next sc ⟨[], cr⟩ = (some m, ⟨rest, cr + 1⟩) := by
  have hmin : min sc.repeats (cr + 1) = cr + 1 := min_eq_right (le_of_lt hlt)
  have hne : ¬(cr + 1 = sc.repeats) := by omega
  simp [ScriptIterator.next, hmin, hne, hseq]

theorem ScriptIterator.next_nil_empty (sc : Script) (cr : Int)
    (hlt : cr + 1 < sc.repeats) (hseq : sc.sequence = []) :
    ScriptIterator.next sc ⟨[], cr⟩ = (none, ⟨[], sc.repeats⟩) := by
  have hmin : min sc.repeats (cr + 1) = cr + 1 := min_eq_right (le_of_lt hlt)
  have hne : ¬(cr + 1 = sc.repeats) := by omega
  simp [ScriptIterator.next, hmin, hne, hseq]

theorem ScriptIterator.next_nil_over (sc : Script) (cr : Int)
    (hge : sc.repeats ≤ cr) :
    ScriptIterator.next sc ⟨[], cr⟩ = (none, ⟨[], sc.repeats⟩) := by
  have hmin : min sc.repeats (cr + 1) = sc.repeats := min_eq_left (by omega)
  simp [ScriptIterator.next, hmin]

/-- Helper for the iterator claim: from a state holding suffix `l` of the
current pass with `j` full passes still owed after it, a sufficiently fuelled
run yields `l` followed by `j` copies of the sequence. -/
theorem ScriptIterator.toListFuel_run (sc : Script) (hs : sc.sequence ≠ []) :
    ∀ (j : Nat) (l : List Measurement) (fuel : Nat) (cr : Int),
      cr + 1 + j = sc.repeats →
      l.length + j * sc.sequence.length ≤ fuel →
      ScriptIterator.toListFuel sc fuel ⟨l, cr⟩ = l ++ repConcat j sc.sequence := by
  intro j
  induction j with
  | zero =>
    intro l
    induction l with
    | nil =>
      intro fuel cr hcr _
      match fuel with
      | 0 => simp [ScriptIterator.toListFuel, repConcat]
      | fuel + 1 =>
        simp only [ScriptIterator.toListFuel,
          ScriptIterator.next_nil_last sc cr (by omega)]
        simp [repConcat]
    | cons m rest ihl =>
      intro fuel cr hcr hfuel
      match fuel with
      | 0 => simp at hfuel
      | fuel + 1 =>
        simp only [ScriptIterator.toListFuel, ScriptIterator.next_cons]
        rw [ihl fuel cr hcr (by simp at hfuel ⊢; omega)]
        rfl
  | succ j ihj =>
    intro l
    induction l with
    | nil =>
      intro fuel cr hcr hfuel
      obtain ⟨m, rest, hseq⟩ : ∃ m rest, sc.sequence = m :: rest := by
        cases hseq : sc.sequence with
        | nil => exact absurd hseq hs
        | cons a b => exact ⟨a, b, rfl⟩
      have hlenseq : sc.sequence.length = rest.length + 1 := by
        rw [hseq]; simp
      have hexp : (j + 1) * sc.sequence.length =
          j * sc.sequence.length + sc.sequence.length := Nat.succ_mul ..
      match fuel with
      | 0 => omega
      | fuel + 1 =>
        simp only [ScriptIterator.toListFuel,
          ScriptIterator.next_nil_wrap sc cr m rest (by omega) hseq]
        rw [ihj rest fuel (cr + 1) (by omega) (by simp at hfuel ⊢; omega)]
        have hrep : repConcat (j + 1) sc.sequence =
            sc.sequence ++ repConcat j sc.sequence := rfl
        rw [hrep, hseq]
        simp
    | cons m rest ihl =>
      intro fuel cr hcr hfuel
      match fuel with
      | 0 => simp at hfuel
      | fuel + 1 =>
        simp only [ScriptIterator.toListFuel, ScriptIterator.next_cons]
        rw [ihl fuel cr hcr (by simp at hfuel ⊢; omega)]
        rfl

/-- Once `ScriptIterator.next` has signalled exhaustion, its resulting state
signals exhaustion again on every further call, without wrapping. -/
theorem ScriptIterator.next_exhausted (sc : Script) (it it2 : ScriptIterator)
    (h : ScriptIterator.next sc it = (none, it2)) :
    ScriptIterator.next sc it2 = (none, it2) := by
  have hit2 : it2 = ⟨[], sc.repeats⟩ := by
    match it with
    | ⟨m :: rest, cr⟩ => simp [ScriptIterator.next] at h
    | ⟨[], cr⟩ =>
      rcases le_or_lt sc.repeats cr with hc | hc
      · rw [ScriptIterator.next_nil_over sc cr hc] at h
        simpa using h.symm
      · rcases eq_or_lt_of_le (Int.add_one_le_iff.mpr hc) with he | hlt
        · rw [ScriptIterator.next_nil_last sc cr he] at h
          simpa using h.symm
        · cases hseq : sc.sequence with
          | cons a b =>
            rw [ScriptIterator.next_nil_wrap sc cr a b hlt hseq] at h
            simp at h
          | nil =>
            rw [ScriptIterator.next_nil_empty sc cr hlt hseq] at h
            simpa using h.symm
  subst hit2
  exact ScriptIterator.next_nil_over sc sc.repeats le_rfl

/-- Claim C1: for every `Script` with `repeats ≥ 1` and a non-empty `sequence`,
iterating a fresh `ScriptIterator` to exhaustion yields exactly
`repeats * len(sequence)` measurements, equal to the concatenation of
`repeats` copies of the sequence in order (repeat-major, then sequence order);
and once exhaustion is signalled, every further call signals exhaustion again
rather than wrapping. -/
theorem scriptIterator_yields_all_repeats (sc : Script)
    (h1 : 1 ≤ sc.repeats) (h2 : sc.sequence ≠ []) :
    (∀ fuel : Nat, sc.repeats.toNat * sc.sequence.length ≤ fuel →
      ScriptIterator.toListFuel sc fuel (ScriptIterator.ofScript sc) =
        repConcat sc.repeats.toNat sc.sequence ∧
      (ScriptIterator.toListFuel sc fuel (ScriptIterator.ofScript sc)).length =
        sc.repeats.toNat * sc.sequence.length) ∧
    (∀ it it2, ScriptIterator.next sc it = (none, it2) →
      ScriptIterator.next sc it2 = (none, it2)) := by
  constructor
  · intro fuel hfuel
    obtain ⟨j, hj⟩ : ∃ j : Nat, sc.repeats.toNat = j + 1 :=
      ⟨sc.repeats.toNat - 1, by omega⟩
    have hk : (0 : Int) + 1 + j = sc.repeats := by omega
    have hexp : (j + 1) * sc.sequence.length =
        j * sc.sequence.length + sc.sequence.length := Nat.succ_mul ..
    have hb : sc.sequence.length + j * sc.sequence.length ≤ fuel := by
      rw [hj, hexp] at hfuel
      omega
    have hrun := ScriptIterator.toListFuel_run sc h2 j sc.sequence fuel 0 hk hb
    have hrep : sc.sequence ++ repConcat j sc.sequence =
        repConcat sc.repeats.toNat sc.sequence := by
      rw [hj]
      rfl
    constructor
    · rw [ScriptIterator.ofScript, hrun, hrep]
    · rw [ScriptIterator.ofScript, hrun]
      simp [repConcat_length, hj, hexp]
      omega
  · exact fun it it2 h => ScriptIterator.next_exhausted sc it it2 h

/-- Concrete witness for C1: the example two-step script with two repeats from
the spec, iterated to exhaustion. -/
theorem scriptIterator_yields_all_repeats_witness :
    (ScriptIterator.toListFuel ⟨2, [⟨.num 0, 1⟩, ⟨.num 90, 2⟩]⟩ 4
        (ScriptIterator.ofScript ⟨2, [⟨.num 0, 1⟩, ⟨.num 90, 2⟩]⟩) =
      repConcat 2 [⟨.num 0, 1⟩, ⟨.num 90, 2⟩]) ∧
    (ScriptIterator.toListFuel ⟨2, [⟨.num 0, 1⟩, ⟨.num 90, 2⟩]⟩ 4
        (ScriptIterator.ofScript ⟨2, [⟨.num 0, 1⟩, ⟨.num 90, 2⟩]⟩)).length =
      2 * 2 :=
  (scriptIterator_yields_all_repeats ⟨2, [⟨.num 0, 1⟩, ⟨.num 90, 2⟩]⟩
    (by decide) (by decide)).1 4 (by decide)

/-- The five states of the `ScriptRunner` state machine. -/
inductive RState where
  | not_running
  | waiting_to_move
  | moving
  | waiting_to_measure
  | measuring
  deriving DecidableEq

/-- Observable effects the runner emits, in emission order.

`enterState` models the `on_enter_state` log line written on every state
entry; the others are the pubsub messages and the error dialog:
`scriptBegin` = "measure_script.begin", `startMovingMsg` =
"measure_script.start_moving", `moveBegin t` =
"device.stepper_motor.move.begin" with target `t`, `startMeasuringMsg` =
"measure_script.start_measuring", `spectrometerStart` =
"device.spectrometer.start_measuring", `scriptEnd` = "measure_script.end",
`showSpectrometerError` = the `show_error_message` dialog raised by
`_on_spectrometer_error`. -/
inductive Effect where
  | enterState (st : RState)
  | scriptBegin
  | startMovingMsg
  | moveBegin (target : AngleValue)
  | startMeasuringMsg
  | spectrometerStart
  | scriptEnd
  | showSpectrometerError
  deriving DecidableEq

/-- The mutable state of a `ScriptRunner`.

The boolean flags model the dynamic pubsub subscriptions:
`devSubscribed` covers the three subscriptions made together in
`on_exit_not_running` and removed together in `on_enter_not_running`
(`move.end` -> `finish_moving`, stepper-motor error, spectrometer error);
`subMeasuringStart` covers `_measuring_start` on
"device.spectrometer.status.measuring"; `subMeasuringEnd` covers
`_measuring_end` on "device.spectrometer.status.connected".  The
always-present `measure_script.abort`/`pause`/`unpause` subscriptions made in
`__init__` are modelled by `ScriptRunner.handleEvent` dispatching those events
unconditionally. -/
structure RunnerState where
  state : RState
  paused : Bool
  iter : ScriptIterator
  current : Option Measurement
  count : Int
  devSubscribed : Bool
  subMeasuringStart : Bool
  subMeasuringEnd : Bool
  deriving DecidableEq

/-- `ScriptRunner.__init__`: initial state before `start_moving` is invoked.
Entering the initial `not_running` state performs no actions
(`on_enter_not_running` returns early on the `__initial__` event). -/
def ScriptRunner.initial (sc : Script) : RunnerState :=
  ⟨.not_running, false, ScriptIterator.ofScript sc, none, 0, false, false, false⟩

/-- `ScriptRunner._request_measurement`: broadcast
"measure_script.start_measuring" and dispatch the spectrometer capture
request.  Also invoked on repeat measurements and from `unpause`. -/
def ScriptRunner.requestMeasurement : List Effect :=
  [.startMeasuringMsg, .spectrometerStart]

/-- Entry into `not_running` from any non-initial state
(`on_enter_not_running`): detach the stepper-motor/spectrometer
subscriptions, dispatch the safe-position move request (`target="nadir"`)
and broadcast "measure_script.end". -/
def ScriptRunner.enterNotRunning (s : RunnerState) : RunnerState × List Effect :=
  ({ s with state := .not_running, devSubscribed := false },
   [.enterState .not_running, .moveBegin (.preset "nadir"), .scriptEnd])

/-- Entry into `moving` (`on_enter_moving` preceded by the state change):
load the next measurement via the iterator; if none remain, fire the
`finish` transition back to `not_running`; otherwise broadcast
"measure_script.start_moving" and dispatch the move request for the loaded
angle. -/
def ScriptRunner.enterMoving (sc : Script) (s : RunnerState) :
    RunnerState × List Effect :=
  match ScriptIterator.next sc s.iter with
  | (some m, it2) =>
    ({ s with state := .moving, iter := it2, current := some m, count := 0 },
     [.enterState .moving, .startMovingMsg, .moveBegin m.angle])
  | (none, it2) =>
    let r := ScriptRunner.enterNotRunning { s with state := .moving, iter := it2 }
    (r.1, .enterState .moving :: r.2)

/-- The `start_moving` transition (`not_running -> moving`):
`before_start_moving` broadcasts "measure_script.begin", then
`on_exit_not_running` attaches the device subscriptions, then `moving` is
entered. -/
def ScriptRunner.start_moving (sc : Script) (s : RunnerState) :
    RunnerState × List Effect :=
  let r := ScriptRunner.enterMoving sc { s with devSubscribed := true }
  (r.1, .scriptBegin :: r.2)

/-- Entry into `waiting_to_measure` (`on_enter_waiting_to_measure` preceded by
the state change): subscribe `_measuring_start`, then request the measurement
unless paused. -/
def ScriptRunner.enterWaitingToMeasure (s : RunnerState) :
    RunnerState × List Effect :=
  let s2 := { s with state := .waiting_to_measure, subMeasuringStart := true }
  if s2.paused then (s2, [.enterState .waiting_to_measure])
  else (s2, .enterState .waiting_to_measure :: ScriptRunner.requestMeasurement)

/-- The `finish_moving` transition (`moving -> waiting_to_measure`), triggered
by the stepper motor's "move.end" notification. -/
def ScriptRunner.finish_moving (sc : Script) (s : RunnerState) :
    RunnerState × List Effect :=
  ScriptRunner.enterWaitingToMeasure s

/-- The `finish_waiting_for_move` transition (`waiting_to_move -> moving`). -/
def ScriptRunner.finish_waiting_for_move (sc : Script) (s : RunnerState) :
    RunnerState × List Effect :=
  ScriptRunner.enterMoving sc s

/-- Entry into `waiting_to_move` (`on_enter_waiting_to_move` preceded by the
state change): immediately perform `finish_waiting_for_move` unless paused. -/
def ScriptRunner.enterWaitingToMove (sc : Script) (s : RunnerState) :
    RunnerState × List Effect :=
  let s2 := { s with state := .waiting_to_move }
  if s2.paused then (s2, [.enterState .waiting_to_move])
  else
    let r := ScriptRunner.finish_waiting_for_move sc s2
    (r.1, .enterState .waiting_to_move :: r.2)

/-- `ScriptRunner._measuring_start`, invoked when the spectrometer reports
"status.measuring" while subscribed: unsubscribe itself, perform the
`start_measuring` transition (`waiting_to_measure -> measuring`; exiting
`waiting_to_measure` unsubscribes `_measuring_start` again, harmlessly), then
subscribe `_measuring_end` for status changes. -/
def ScriptRunner.measuring_start (s : RunnerState) : RunnerState × List Effect :=
  ({ s with state := .measuring, subMeasuringStart := false,
            subMeasuringEnd := true },
   [.enterState .measuring])

/-- `ScriptRunner._measuring_end`, invoked when the spectrometer reports
"status.connected" while subscribed: increment the per-angle count; if it has
reached the current measurement's `measurements`, perform `start_next_move`
(`measuring -> waiting_to_move`; exiting `measuring` unsubscribes
`_measuring_end`), else `repeat_measuring`
(`measuring -> waiting_to_measure`).  `current = none` cannot occur when the
handler is subscribed (a measurement is always loaded first); in the source
it would be an attribute error, modelled as a no-op. -/
def ScriptRunner.measuring_end (sc : Script) (s : RunnerState) :
    RunnerState × List Effect :=
  let s2 := { s with count := s.count + 1 }
  match s2.current with
  | none => (s2, [])
  | some m =>
    if s2.count = m.measurements then
      ScriptRunner.enterWaitingToMove sc { s2 with subMeasuringEnd := false }
    else
      ScriptRunner.enterWaitingToMeasure { s2 with subMeasuringEnd := false }

/-- `ScriptRunner.abort`: dispatch on the current state to the matching
`cancel_*` transition into `not_running` (each runs the exit callback of its
source state, then `on_enter_not_running`); in `not_running` no case matches
and nothing happens. -/
def ScriptRunner.abort (s : RunnerState) : RunnerState × List Effect :=
  match s.state with
  | .moving => ScriptRunner.enterNotRunning s
  | .measuring => ScriptRunner.enterNotRunning { s with subMeasuringEnd := false }
  | .waiting_to_measure =>
    ScriptRunner.enterNotRunning { s with subMeasuringStart := false }
  | .waiting_to_move => ScriptRunner.enterNotRunning s
  | .not_running => (s, [])

/-- `ScriptRunner.pause`: set the paused flag; nothing else happens. -/
def ScriptRunner.pause (s : RunnerState) : RunnerState × List Effect :=
  ({ s with paused := true }, [])

/-- `ScriptRunner.unpause`: clear the paused flag, then resume the pending
step when in one of the waiting states: `finish_waiting_for_move` from
`waiting_to_move`, or re-issue `_request_measurement` (no transition) from
`waiting_to_measure`. -/
def ScriptRunner.unpause (sc : Script) (s : RunnerState) :
    RunnerState × List Effect :=
  let s2 := { s with paused := false }
  match s2.state with
  | .waiting_to_move => ScriptRunner.finish_waiting_for_move sc s2
  | .waiting_to_measure => (s2, ScriptRunner.requestMeasurement)
  | _ => (s2, [])

/-- `ScriptRunner._on_spectrometer_error`: abort, then show the error dialog
naming the spectrometer failure. -/
def ScriptRunner.on_spectrometer_error (s : RunnerState) :
    RunnerState × List Effect :=
  let r := ScriptRunner.abort s
  (r.1, r.2 ++ [.showSpectrometerError])

/-- The externally delivered events the runner can receive: the always-on
user-control topics and the device notifications it subscribes to
dynamically. -/
inductive Event where
  | abortCmd
  | pauseCmd
  | unpauseCmd
  | moveEnd
  | motorError
  | spectrometerError
  | statusMeasuring
  | statusConnected
  deriving DecidableEq

/-- Deliver one pubsub event to the runner.  Device notifications reach their
handlers only while the corresponding subscription flag is set; the
user-control topics are always subscribed.  `move.end` triggers the
`finish_moving` transition, which is only legal from `moving` (in any other
state the library would raise `TransitionNotAllowed` to the sender, leaving
the machine unchanged, modelled as a no-op). -/
def ScriptRunner.handleEvent (sc : Script) (s : RunnerState) :
    Event → RunnerState × List Effect
  | .abortCmd => ScriptRunner.abort s
  | .pauseCmd => ScriptRunner.pause s
  | .unpauseCmd => ScriptRunner.unpause sc s
  | .moveEnd =>
    if s.devSubscribed ∧ s.state = .moving then ScriptRunner.finish_moving sc s
    else (s, [])
  | .motorError => if s.devSubscribed then ScriptRunner.abort s else (s, [])
  | .spectrometerError =>
    if s.devSubscribed then ScriptRunner.on_spectrometer_error s else (s, [])
  | .statusMeasuring =>
    if s.subMeasuringStart then ScriptRunner.measuring_start s else (s, [])
  | .statusConnected =>
    if s.subMeasuringEnd then ScriptRunner.measuring_end sc s else (s, [])

/-- Deliver a list of events in order, concatenating the emitted effects. -/
def ScriptRunner.runEvents (sc : Script) :
    RunnerState → List Event → RunnerState × List Effect
  | s, [] => (s, [])
  | s, e :: es =>
    let r := ScriptRunner.handleEvent sc s e
    let r2 := ScriptRunner.runEvents sc r.1 es
    (r2.1, r.2 ++ r2.2)

/-- The sequence of states entered during a run, read off the effect trace. -/
def enteredStates (es : List Effect) : List RState :=
  es.filterMap fun e =>
    match e with
    | .enterState st => some st
    | _ => none

/-- `Script.run` followed by delivering the given events in order: construct a
runner, fire `start_moving`, then handle the events, returning the final
state and the full effect trace. -/
def scenarioRun (sc : Script) (es : List Event) : RunnerState × List Effect :=
  let r := ScriptRunner.start_moving sc (ScriptRunner.initial sc)
  let r2 := ScriptRunner.runEvents sc r.1 es
  (r2.1, r.2 ++ r2.2)

/-- Claim C2 (amended: the single step must have a measurements count of 1,
otherwise the capture-completed notification triggers `repeat_measuring`
instead): running a script with one step of one measurement and `repeats = 1`,
with move-complete, capture-started and capture-completed delivered in order
and no pause, drives the runner through
`not_running, moving, waiting_to_measure, measuring, waiting_to_move, moving,
not_running`, where the second entry into `moving` finds the iterator
exhausted and fires `finish` (no further move dispatch for a measurement,
only the safe-position move of the `not_running` entry). -/
theorem runner_one_step_one_repeat_trace (a : AngleValue) :
    (ScriptRunner.initial ⟨1, [⟨a, 1⟩]⟩).state = .not_running ∧
    scenarioRun ⟨1, [⟨a, 1⟩]⟩ [.moveEnd, .statusMeasuring, .statusConnected] =
      (⟨.not_running, false, ⟨[], 1⟩, some ⟨a, 1⟩, 1, false, false, false⟩,
       [.scriptBegin, .enterState .moving, .startMovingMsg, .moveBegin a,
        .enterState .waiting_to_measure, .startMeasuringMsg, .spectrometerStart,
        .enterState .measuring,
        .enterState .waiting_to_move, .enterState .moving,
        .enterState .not_running, .moveBegin (.preset "nadir"), .scriptEnd]) ∧
    enteredStates (scenarioRun ⟨1, [⟨a, 1⟩]⟩
        [.moveEnd, .statusMeasuring, .statusConnected]).2 =
      [.moving, .waiting_to_measure, .measuring, .waiting_to_move, .moving,
       .not_running] :=
  ⟨rfl, rfl, rfl⟩

/-- Witness for C2's amended theorem at the concrete angle 0. -/
theorem runner_one_step_one_repeat_trace_witness :
    (ScriptRunner.initial ⟨1, [⟨.num 0, 1⟩]⟩).state = .not_running ∧
    scenarioRun ⟨1, [⟨.num 0, 1⟩]⟩ [.moveEnd, .statusMeasuring, .statusConnected] =
      (⟨.not_running, false, ⟨[], 1⟩, some ⟨.num 0, 1⟩, 1, false, false, false⟩,
       [.scriptBegin, .enterState .moving, .startMovingMsg, .moveBegin (.num 0),
        .enterState .waiting_to_measure, .startMeasuringMsg, .spectrometerStart,
        .enterState .measuring,
        .enterState .waiting_to_move, .enterState .moving,
        .enterState .not_running, .moveBegin (.preset "nadir"), .scriptEnd]) ∧
    enteredStates (scenarioRun ⟨1, [⟨.num 0, 1⟩]⟩
        [.moveEnd, .statusMeasuring, .statusConnected]).2 =
      [.moving, .waiting_to_measure, .measuring, .waiting_to_move, .moving,
       .not_running] :=
  runner_one_step_one_repeat_trace (.num 0)

/-- Counterexample to C2 as stated: a script whose single step has a
measurements count of 2 (still "exactly one step", `repeats = 1`) does not
follow the claimed state sequence under those three notifications — the
capture-completed notification leads back to `waiting_to_measure`, not
`waiting_to_move`, and the run does not finish. -/
theorem runner_one_step_counterexample :
    (scenarioRun ⟨1, [⟨.num 0, 2⟩]⟩
        [.moveEnd, .statusMeasuring, .statusConnected]).1.state =
      .waiting_to_measure ∧
    enteredStates (scenarioRun ⟨1, [⟨.num 0, 2⟩]⟩
        [.moveEnd, .statusMeasuring, .statusConnected]).2 ≠
      [.moving, .waiting_to_measure, .measuring, .waiting_to_move, .moving,
       .not_running] := by
  exact ⟨rfl, by decide⟩

/-- Claim C3: `abort()` in any of the four non-idle states transitions to
`not_running` and, within that single entry, dispatches exactly one
safe-position move request (`move.begin` with the fixed rest preset "nadir")
and exactly one "measure_script.end" broadcast; `abort()` while already
`not_running` performs no transition, no dispatch and no broadcast. -/
theorem abort_safe_position_once (s : RunnerState) :
    (s.state ≠ .not_running →
      (ScriptRunner.abort s).1.state = .not_running ∧
      (ScriptRunner.abort s).2.count (.moveBegin (.preset "nadir")) = 1 ∧
      (ScriptRunner.abort s).2.count .scriptEnd = 1) ∧
    (s.state = .not_running → ScriptRunner.abort s = (s, [])) := by
  constructor
  · intro hne
    cases hs : s.state
    · exact absurd hs hne
    all_goals
      refine ⟨?_, ?_, ?_⟩ <;>
        simp [ScriptRunner.abort, hs, ScriptRunner.enterNotRunning,
          List.count_cons, List.count_nil]
  · intro he
    simp [ScriptRunner.abort, he]

/-- Witness for C3 at a concrete non-idle state (a paused runner waiting to
measure), with the non-idle hypothesis discharged. -/
theorem abort_safe_position_once_witness :
    (ScriptRunner.abort
        ⟨.waiting_to_measure, true, ⟨[], 0⟩, none, 0, true, true,
          false⟩).1.state = .not_running ∧
    (ScriptRunner.abort
        ⟨.waiting_to_measure, true, ⟨[], 0⟩, none, 0, true, true,
          false⟩).2.count (.moveBegin (.preset "nadir")) = 1 ∧
    (ScriptRunner.abort
        ⟨.waiting_to_measure, true, ⟨[], 0⟩, none, 0, true, true,
          false⟩).2.count .scriptEnd = 1 :=
  (abort_safe_position_once
    ⟨.waiting_to_measure, true, ⟨[], 0⟩, none, 0, true, true, false⟩).1
    (by decide)

/-- Claim C10: the user-control subscriptions made in `__init__` are never
removed (`handleEvent` dispatches `abort`/`pause`/`unpause` unconditionally),
yet delivering them while `not_running` never transitions the state, never
dispatches a device request and never emits a broadcast — at most the
internal paused flag is toggled. -/
theorem idle_user_commands_no_effects (sc : Script) (s : RunnerState)
    (h : s.state = .not_running) :
    ScriptRunner.handleEvent sc s .abortCmd = (s, []) ∧
    ScriptRunner.handleEvent sc s .pauseCmd = ({ s with paused := true }, []) ∧
    ScriptRunner.handleEvent sc s .unpauseCmd = ({ s with paused := false }, []) := by
  refine ⟨?_, rfl, ?_⟩
  · simp [ScriptRunner.handleEvent, ScriptRunner.abort, h]
  · simp [ScriptRunner.handleEvent, ScriptRunner.unpause, h]

/-- Witness for C10 at the freshly constructed runner of an empty script. -/
theorem idle_user_commands_no_effects_witness :
    ScriptRunner.handleEvent ⟨1, []⟩ (ScriptRunner.initial ⟨1, []⟩) .abortCmd =
      (ScriptRunner.initial ⟨1, []⟩, []) ∧
    ScriptRunner.handleEvent ⟨1, []⟩ (ScriptRunner.initial ⟨1, []⟩) .pauseCmd =
      ({ ScriptRunner.initial ⟨1, []⟩ with paused := true }, []) ∧
    ScriptRunner.handleEvent ⟨1, []⟩ (ScriptRunner.initial ⟨1, []⟩) .unpauseCmd =
      ({ ScriptRunner.initial ⟨1, []⟩ with paused := false }, []) :=
  idle_user_commands_no_effects ⟨1, []⟩ (ScriptRunner.initial ⟨1, []⟩) rfl

/-- Helper: a single event other than `unpause` delivered to a paused runner
keeps it paused and emits no capture request. -/
theorem handleEvent_paused_no_capture (sc : Script) (s : RunnerState) (e : Event)
    (hp : s.paused = true) (he : e ≠ .unpauseCmd) :
    (ScriptRunner.handleEvent sc s e).1.paused = true ∧
    Effect.startMeasuringMsg ∉ (ScriptRunner.handleEvent sc s e).2 ∧
    Effect.spectrometerStart ∉ (ScriptRunner.handleEvent sc s e).2 := by
  cases e with
  | abortCmd =>
    cases hs : s.state <;>
      simp [ScriptRunner.handleEvent, ScriptRunner.abort, hs,
        ScriptRunner.enterNotRunning, hp]
  | pauseCmd => simp [ScriptRunner.handleEvent, ScriptRunner.pause]
  | unpauseCmd => exact absurd rfl he
  | moveEnd =>
    by_cases hc : s.devSubscribed = true ∧ s.state = .moving
    · simp [ScriptRunner.handleEvent, hc.1, hc.2, ScriptRunner.finish_moving,
        ScriptRunner.enterWaitingToMeasure, hp]
    · rw [ScriptRunner.handleEvent]
      rw [if_neg (by simpa using hc)]
      simp [hp]
  | motorError =>
    cases hd : s.devSubscribed
    · simp [ScriptRunner.handleEvent, hd, hp]
    · cases hs : s.state <;>
        simp [ScriptRunner.handleEvent, hd, ScriptRunner.abort, hs,
          ScriptRunner.enterNotRunning, hp]
  | spectrometerError =>
    cases hd : s.devSubscribed
    · simp [ScriptRunner.handleEvent, hd, hp]
    · cases hs : s.state <;>
        simp [ScriptRunner.handleEvent, hd, ScriptRunner.on_spectrometer_error,
          ScriptRunner.abort, hs, ScriptRunner.enterNotRunning, hp]
  | statusMeasuring =>
    cases hd : s.subMeasuringStart
    · simp [ScriptRunner.handleEvent, hd, hp]
    · simp [ScriptRunner.handleEvent, hd, ScriptRunner.measuring_start, hp]
  | statusConnected =>
    cases hd : s.subMeasuringEnd
    · simp [ScriptRunner.handleEvent, hd, hp]
    · rcases hc : s.current with _ | m
      · simp [ScriptRunner.handleEvent, hd, ScriptRunner.measuring_end, hc, hp]
      · by_cases hn : s.count + 1 = m.measurements
        · simp [ScriptRunner.handleEvent, hd, ScriptRunner.measuring_end, hc, hn,
            ScriptRunner.enterWaitingToMove, hp]
        · simp [ScriptRunner.handleEvent, hd, ScriptRunner.measuring_end, hc, hn,
            ScriptRunner.enterWaitingToMeasure, hp]

/-- Helper: over any event sequence not containing `unpause`, a paused runner
never emits a capture request. -/
theorem runEvents_paused_no_capture (sc : Script) :
    ∀ (es : List Event) (s : RunnerState), s.paused = true →
      Event.unpauseCmd ∉ es →
      Effect.startMeasuringMsg ∉ (ScriptRunner.runEvents sc s es).2 ∧
      Effect.spectrometerStart ∉ (ScriptRunner.runEvents sc s es).2 := by
  intro es
  induction es with
  | nil => intro s _ _; simp [ScriptRunner.runEvents]
  | cons e rest ih =>
    intro s hp hne
    have hene : e ≠ .unpauseCmd := fun h => hne (by simp [h])
    have hrne : Event.unpauseCmd ∉ rest := fun h => hne (by simp [h])
    have h1 := handleEvent_paused_no_capture sc s e hp hene
    have h2 := ih (ScriptRunner.handleEvent sc s e).1 h1.1 hrne
    simp only [ScriptRunner.runEvents, List.mem_append]
    constructor
    · intro h
      rcases h with h | h
      · exact h1.2.1 h
      · exact h2.1 h
    · intro h
      rcases h with h | h
      · exact h1.2.2 h
      · exact h2.2 h

/-- Claim C5: while paused, no capture request ("measure_script.start_measuring"
broadcast or spectrometer `start_measuring` dispatch) is emitted by any event
sequence that does not contain `unpause` — in particular not by entering
`waiting_to_measure`; calling `unpause()` in `waiting_to_measure` issues the
capture request exactly once and changes nothing but the paused flag (no
transition); calling `unpause()` in `waiting_to_move` immediately performs
`finish_waiting_for_move`. -/
theorem pause_gates_capture_until_unpause (sc : Script) (s : RunnerState)
    (hp : s.paused = true) :
    (∀ es : List Event, Event.unpauseCmd ∉ es →
      Effect.startMeasuringMsg ∉ (ScriptRunner.runEvents sc s es).2 ∧
      Effect.spectrometerStart ∉ (ScriptRunner.runEvents sc s es).2) ∧
    (s.state = .waiting_to_measure →
      ScriptRunner.unpause sc s =
        ({ s with paused := false },
         [.startMeasuringMsg, .spectrometerStart])) ∧
    (s.state = .waiting_to_move →
      ScriptRunner.unpause sc s =
        ScriptRunner.finish_waiting_for_move sc { s with paused := false }) := by
  refine ⟨fun es hne => runEvents_paused_no_capture sc es s hp hne, ?_, ?_⟩
  · intro hs
    simp [ScriptRunner.unpause, hs, ScriptRunner.requestMeasurement]
  · intro hs
    simp [ScriptRunner.unpause, hs]

/-- Witness for C5: a paused runner in `waiting_to_measure`, with the
no-capture part instantiated at the event list `[pause, statusMeasuring]`. -/
theorem pause_gates_capture_until_unpause_witness :
    (Effect.startMeasuringMsg ∉
      (ScriptRunner.runEvents ⟨1, []⟩
        ⟨.waiting_to_measure, true, ⟨[], 0⟩, none, 0, true, true, false⟩
        [.pauseCmd, .statusMeasuring]).2 ∧
     Effect.spectrometerStart ∉
      (ScriptRunner.runEvents ⟨1, []⟩
        ⟨.waiting_to_measure, true, ⟨[], 0⟩, none, 0, true, true, false⟩
        [.pauseCmd, .statusMeasuring]).2) ∧
    ScriptRunner.unpause ⟨1, []⟩
        ⟨.waiting_to_measure, true, ⟨[], 0⟩, none, 0, true, true, false⟩ =
      (⟨.waiting_to_measure, false, ⟨[], 0⟩, none, 0, true, true, false⟩,
       [.startMeasuringMsg, .spectrometerStart]) := by
  have h := pause_gates_capture_until_unpause ⟨1, []⟩
    ⟨.waiting_to_measure, true, ⟨[], 0⟩, none, 0, true, true, false⟩ rfl
  exact ⟨h.1 [.pauseCmd, .statusMeasuring] (by decide), h.2.1 rfl⟩

/-- Helper: entering `not_running` always leaves the device subscriptions
detached. -/
theorem enterNotRunning_detached (s : RunnerState) :
    (ScriptRunner.enterNotRunning s).1.state = .not_running ∧
    (ScriptRunner.enterNotRunning s).1.devSubscribed = false := by
  simp [ScriptRunner.enterNotRunning]

/-- Helper: if entering `moving` lands in `not_running` (iterator exhausted,
`finish` fired), the device subscriptions are detached. -/
theorem enterMoving_detached (sc : Script) (x : RunnerState) :
    (ScriptRunner.enterMoving sc x).1.state = .not_running →
    (ScriptRunner.enterMoving sc x).1.devSubscribed = false := by
  rcases h : ScriptIterator.next sc x.iter with ⟨o, it2⟩
  cases o <;> simp [ScriptRunner.enterMoving, h, ScriptRunner.enterNotRunning]

/-- Helper: entering `waiting_to_measure` lands in `waiting_to_measure`. -/
theorem enterWaitingToMeasure_state (x : RunnerState) :
    (ScriptRunner.enterWaitingToMeasure x).1.state = .waiting_to_measure := by
  by_cases hp : x.paused <;> simp [ScriptRunner.enterWaitingToMeasure, hp]

/-- Helper: if entering `waiting_to_move` lands in `not_running` (unpaused
runner chaining through `moving` on an exhausted iterator), the device
subscriptions are detached. -/
theorem enterWaitingToMove_detached (sc : Script) (x : RunnerState) :
    (ScriptRunner.enterWaitingToMove sc x).1.state = .not_running →
    (ScriptRunner.enterWaitingToMove sc x).1.devSubscribed = false := by
  by_cases hp : x.paused
  · simp [ScriptRunner.enterWaitingToMove, hp]
  · simpa [ScriptRunner.enterWaitingToMove, hp,
      ScriptRunner.finish_waiting_for_move] using
      enterMoving_detached sc { x with state := .waiting_to_move }

/-- Claim C6: a stepper-motor or spectrometer error notification delivered
while subscribed in a non-idle state aborts the run — the state becomes
`not_running` with exactly one "measure_script.end" broadcast, never a
duplicate; only the spectrometer error additionally surfaces the user-visible
error dialog.  The error subscriptions are detached whenever the machine
enters `not_running` and attached again on `start_moving` (exiting
`not_running`), so an error delivered while detached is a no-op and cannot
re-trigger the machine. -/
theorem device_errors_abort_and_detach (sc : Script) (s : RunnerState) :
    (s.devSubscribed = true → s.state ≠ .not_running →
      (ScriptRunner.handleEvent sc s .motorError).1.state = .not_running ∧
      (ScriptRunner.handleEvent sc s .motorError).2.count .scriptEnd = 1 ∧
      Effect.showSpectrometerError ∉
        (ScriptRunner.handleEvent sc s .motorError).2 ∧
      (ScriptRunner.handleEvent sc s .spectrometerError).1.state =
        .not_running ∧
      (ScriptRunner.handleEvent sc s .spectrometerError).2.count .scriptEnd = 1 ∧
      (ScriptRunner.handleEvent sc s
          .spectrometerError).2.count .showSpectrometerError = 1) ∧
    (s.devSubscribed = false →
      ScriptRunner.handleEvent sc s .motorError = (s, []) ∧
      ScriptRunner.handleEvent sc s .spectrometerError = (s, [])) ∧
    (∀ e : Event, s.state ≠ .not_running →
      (ScriptRunner.handleEvent sc s e).1.state = .not_running →
      (ScriptRunner.handleEvent sc s e).1.devSubscribed = false) ∧
    (∀ (m : Measurement) (it2 : ScriptIterator),
      ScriptIterator.next sc s.iter = (some m, it2) →
      (ScriptRunner.start_moving sc s).1.devSubscribed = true) := by
  refine ⟨?_, ?_, ?_, ?_⟩
  · intro hd hs
    cases hst : s.state
    · exact absurd hst hs
    all_goals
      refine ⟨?_, ?_, ?_, ?_, ?_, ?_⟩ <;>
        simp [ScriptRunner.handleEvent, hd, ScriptRunner.abort, hst,
          ScriptRunner.on_spectrometer_error, ScriptRunner.enterNotRunning,
          List.count_cons, List.count_nil]
  · intro hd
    constructor <;> simp [ScriptRunner.handleEvent, hd]
  · intro e hs
    cases e with
    | abortCmd =>
      cases hst : s.state
      · exact absurd hst hs
      all_goals
        simpa [ScriptRunner.handleEvent, ScriptRunner.abort, hst] using
          fun h => (enterNotRunning_detached _).2
    | pauseCmd =>
      intro h
      exact absurd (by simpa [ScriptRunner.handleEvent, ScriptRunner.pause]
        using h) hs
    | unpauseCmd =>
      cases hst : s.state with
      | waiting_to_move =>
        simpa [ScriptRunner.handleEvent, ScriptRunner.unpause, hst,
          ScriptRunner.finish_waiting_for_move] using
          enterMoving_detached sc { s with paused := false }
      | waiting_to_measure =>
        simp [ScriptRunner.handleEvent, ScriptRunner.unpause, hst]
      | _ =>
        intro h
        exact absurd (by simpa [ScriptRunner.handleEvent, ScriptRunner.unpause,
          hst] using h) hs
    | moveEnd =>
      by_cases hc : s.devSubscribed = true ∧ s.state = .moving
      · simp [ScriptRunner.handleEvent, hc.1, hc.2, ScriptRunner.finish_moving,
          enterWaitingToMeasure_state]
      · rw [ScriptRunner.handleEvent, if_neg (by simpa using hc)]
        intro h
        exact absurd h hs
    | motorError =>
      cases hd : s.devSubscribed
      · simp [ScriptRunner.handleEvent, hd]
      · cases hst : s.state
        · exact absurd hst hs
        all_goals
          simpa [ScriptRunner.handleEvent, hd, ScriptRunner.abort, hst] using
            fun h => (enterNotRunning_detached _).2
    | spectrometerError =>
      cases hd : s.devSubscribed
      · simp [ScriptRunner.handleEvent, hd]
      · cases hst : s.state
        · exact absurd hst hs
        all_goals
          simpa [ScriptRunner.handleEvent, hd,
            ScriptRunner.on_spectrometer_error, ScriptRunner.abort, hst] using
            fun h => (enterNotRunning_detached _).2
    | statusMeasuring =>
      cases hd : s.subMeasuringStart
      · simp [ScriptRunner.handleEvent, hd]
        intro h
        exact absurd h hs
      · simp [ScriptRunner.handleEvent, hd, ScriptRunner.measuring_start]
    | statusConnected =>
      cases hd : s.subMeasuringEnd
      · simp [ScriptRunner.handleEvent, hd]
        intro h
        exact absurd h hs
      · rcases hc : s.current with _ | m
        · simp [ScriptRunner.handleEvent, hd, ScriptRunner.measuring_end, hc]
          intro h
          exact absurd h hs
        · by_cases hn : s.count + 1 = m.measurements
          · simpa [ScriptRunner.handleEvent, hd, ScriptRunner.measuring_end,
              hc, hn] using
              enterWaitingToMove_detached sc _
          · simp [ScriptRunner.handleEvent, hd, ScriptRunner.measuring_end,
              hc, hn, enterWaitingToMeasure_state]
  · intro m it2 hn
    simp [ScriptRunner.start_moving, ScriptRunner.enterMoving, hn]

/-- Witness for C6 at a concrete subscribed runner in the `moving` state. -/
theorem device_errors_abort_and_detach_witness :
    (ScriptRunner.handleEvent ⟨1, []⟩
        ⟨.moving, false, ⟨[], 0⟩, none, 0, true, false, false⟩
        .motorError).1.state = .not_running ∧
    (ScriptRunner.handleEvent ⟨1, []⟩
        ⟨.moving, false, ⟨[], 0⟩, none, 0, true, false, false⟩
        .motorError).2.count .scriptEnd = 1 ∧
    Effect.showSpectrometerError ∉
      (ScriptRunner.handleEvent ⟨1, []⟩
        ⟨.moving, false, ⟨[], 0⟩, none, 0, true, false, false⟩
        .motorError).2 ∧
    (ScriptRunner.handleEvent ⟨1, []⟩
        ⟨.moving, false, ⟨[], 0⟩, none, 0, true, false, false⟩
        .spectrometerError).1.state = .not_running ∧
    (ScriptRunner.handleEvent ⟨1, []⟩
        ⟨.moving, false, ⟨[], 0⟩, none, 0, true, false, false⟩
        .spectrometerError).2.count .scriptEnd = 1 ∧
    (ScriptRunner.handleEvent ⟨1, []⟩
        ⟨.moving, false, ⟨[], 0⟩, none, 0, true, false, false⟩
        .spectrometerError).2.count .showSpectrometerError = 1 :=
  (device_errors_abort_and_detach ⟨1, []⟩
    ⟨.moving, false, ⟨[], 0⟩, none, 0, true, false, false⟩).1 rfl (by decide)

/-- The keys of `ANGLE_PRESETS` from `frog/config.py` (the preset-name test in
`parse_script` is `s in ANGLE_PRESETS`, i.e. key membership). -/
def ANGLE_PRESETS : List String :=
  ["zenith", "nadir", "hot_bb", "cold_bb", "home", "park"]

/-- Universe of YAML document values as returned by `yaml.safe_load`, as far
as measure scripts are concerned.  Mapping keys are modelled as strings (a
mapping with non-string keys fails the schema's key check exactly like one
with wrong string keys). -/
inductive YVal where
  | vnull
  | vbool (b : Bool)
  | vint (n : Int)
  | vfloat (q : ℚ)
  | vstr (s : String)
  | vlist (l : List YVal)
  | vmap (m : List (String × YVal))

/-- Outcomes of `parse_script` besides success: the `ParseError` it raises
for `yaml.YAMLError`/`SchemaError`, and the uncaught Python `TypeError`
escaping from `"version" not in output` / `output["version"] = 1` when the
loaded document is not a mapping. -/
inductive PyException where
  | parseError
  | typeError
  deriving DecidableEq

/-- The `"version" not in output` test.  For a mapping it tests the keys, for
a list it compares (string) elements, for a string it is a substring test;
for any other loaded value Python raises `TypeError`. -/
def hasVersionKey : YVal → Except PyException Bool
  | .vmap m => .ok (m.any fun kv => kv.1 == "version")
  | .vlist l =>
    .ok (l.any fun v =>
      match v with
      | .vstr s => s == "version"
      | _ => false)
  | .vstr s => .ok (decide (("version").toList <:+: s.toList))
  | _ => .error .typeError

/-- The `output["version"] = 1` assignment (only reached when the key is
absent); raises `TypeError` unless the document is a mapping. -/
def setVersionKey : YVal → Except PyException YVal
  | .vmap m => .ok (.vmap (m ++ [("version", .vint 1)]))
  | _ => .error .typeError

/-- The schema's `Const(CURRENT_SCRIPT_VERSION)` check, i.e. Python
`1 == data` (which also accepts `1.0` and `True`). -/
def versionConstOK : YVal → Bool
  | .vint n => n == 1
  | .vfloat q => q == 1
  | .vbool b => b
  | _ => false

/-- The schema's `int` type check, `isinstance(x, int)` (Python `bool` is a
subclass of `int`), returning the integer value. -/
def asPyInt : YVal → Option Int
  | .vint n => some n
  | .vbool b => some (if b then 1 else 0)
  | _ => none

/-- The schema's `Or(valid_float, valid_preset)` angle check: a `float`
(`isinstance` excludes ints and bools) in `[0, 360)`, or a preset name. -/
def validAngle : YVal → Option AngleValue
  | .vfloat q => if 0 ≤ q ∧ q < 360 then some (.num q) else none
  | .vstr s => if s ∈ ANGLE_PRESETS then some (.preset s) else none
  | _ => none

/-- The schema library's dict key check: all required keys present and no
others. -/
def keysExactly (m : List (String × YVal)) (ks : List String) : Bool :=
  ks.all (fun k => (m.map Prod.fst).contains k) &&
    (m.map Prod.fst).all fun k => ks.contains k

/-- Validation of one `sequence` entry against
`[angle: Or(valid_float, valid_preset), measurements: And(int, > 0)]`,
returning the `Measurement` that `Script.__init__` builds from it. -/
def validMeasurement : YVal → Option Measurement
  | .vmap m =>
    if keysExactly m ["angle", "measurements"] then
      match m.lookup "angle", m.lookup "measurements" with
      | some av, some mv =>
        match validAngle av, asPyInt mv with
        | some a, some n => if 0 < n then some ⟨a, n⟩ else none
        | _, _ => none
      | _, _ => none
    else none
  | _ => none

/-- Validation of the `sequence` entries, element by element. -/
def validateSeq : List YVal → Option (List Measurement)
  | [] => some []
  | x :: xs =>
    match validMeasurement x, validateSeq xs with
    | some mm, some rest => some (mm :: rest)
    | _, _ => none

/-- `schema.validate` for the measure-script schema, followed by
`output.pop("version")` and the construction of the `Script` (`path`
omitted): mapping with exactly the keys `version`, `repeats`, `sequence`;
`version` equal to the current version `1`; `repeats` a positive int;
`sequence` a non-empty list of valid entries.  `none` models
`SchemaError`. -/
def validateDoc : YVal → Option Script
  | .vmap m =>
    if keysExactly m ["version", "repeats", "sequence"] then
      match m.lookup "version", m.lookup "repeats", m.lookup "sequence" with
      | some vv, some rv, some sv =>
        if versionConstOK vv then
          match asPyInt rv with
          | some r =>
            if 0 < r then
              match sv with
              | .vlist l =>
                if l.isEmpty then none
                else
                  match validateSeq l with
                  | some seq => some ⟨r, seq⟩
                  | none => none
              | _ => none
            else none
          | none => none
        else none
      | _, _, _ => none
    else none
  | _ => none

/-- `parse_script` applied to an already-loaded YAML document: insert the
default version tag if absent (raising `TypeError` on non-mappings, outside
the `except (YAMLError, SchemaError)` clause), then validate against the
schema, raising `ParseError` on any schema violation. -/
def parse_script (doc : YVal) : Except PyException Script :=
  match hasVersionKey doc with
  | .error e => .error e
  | .ok hv =>
    match if hv then Except.ok doc else setVersionKey doc with
    | .error e => .error e
    | .ok doc2 =>
      match validateDoc doc2 with
      | some sc => .ok sc
      | none => .error .parseError

/-- The validity of an angle value as required by the schema. -/
def validAngleValue : AngleValue → Prop
  | .num q => 0 ≤ q ∧ q < 360
  | .preset s => s ∈ ANGLE_PRESETS

instance (a : AngleValue) : Decidable (validAngleValue a) :=
  match a with
  | .num q => inferInstanceAs (Decidable (0 ≤ q ∧ q < 360))
  | .preset s => inferInstanceAs (Decidable (s ∈ ANGLE_PRESETS))

/-- The invariant `parse_script` establishes on a successfully parsed script:
positive repeats, non-empty sequence, every entry with a positive
measurements count and a valid angle. -/
def validScript (sc : Script) : Prop :=
  0 < sc.repeats ∧ sc.sequence ≠ [] ∧
    ∀ mm ∈ sc.sequence, 0 < mm.measurements ∧ validAngleValue mm.angle

instance (sc : Script) : Decidable (validScript sc) := by
  unfold validScript
  infer_instance

theorem validAngle_sound (v : YVal) (a : AngleValue)
    (h : validAngle v = some a) : validAngleValue a := by
  cases v with
  | vfloat q =>
    simp only [validAngle] at h
    split at h
    · rename_i hq
      cases h
      exact hq
    · exact Option.noConfusion h
  | vstr s =>
    simp only [validAngle] at h
    split at h
    · rename_i hs
      cases h
      exact hs
    · exact Option.noConfusion h
  | vnull => exact Option.noConfusion h
  | vbool b => exact Option.noConfusion h
  | vint n => exact Option.noConfusion h
  | vlist l => exact Option.noConfusion h
  | vmap m => exact Option.noConfusion h

theorem validMeasurement_sound (v : YVal) (mm : Measurement)
    (h : validMeasurement v = some mm) :
    0 < mm.measurements ∧ validAngleValue mm.angle := by
  cases v with
  | vmap m =>
    simp only [validMeasurement] at h
    split at h
    · split at h
      · split at h
        · split at h
          · rename_i hangle _ hn
            cases h
            exact ⟨hn, validAngle_sound _ _ hangle⟩
          · exact Option.noConfusion h
        · exact Option.noConfusion h
      · exact Option.noConfusion h
    · exact Option.noConfusion h
  | vnull => exact Option.noConfusion h
  | vbool b => exact Option.noConfusion h
  | vint n => exact Option.noConfusion h
  | vfloat q => exact Option.noConfusion h
  | vstr s => exact Option.noConfusion h
  | vlist l => exact Option.noConfusion h

theorem validateSeq_sound :
    ∀ (l : List YVal) (seq : List Measurement),
      validateSeq l = some seq →
      seq.length = l.length ∧
        ∀ mm ∈ seq, 0 < mm.measurements ∧ validAngleValue mm.angle := by
  intro l
  induction l with
  | nil =>
    intro seq h
    cases h
    simp
  | cons x xs ih =>
    intro seq h
    simp only [validateSeq] at h
    split at h
    · rename_i mm rest hx hrest
      cases h
      have := ih rest hrest
      refine ⟨by simp [this.1], ?_⟩
      intro y hy
      rcases List.mem_cons.mp hy with rfl | hy2
      · exact validMeasurement_sound x y hx
      · exact this.2 y hy2
    · exact Option.noConfusion h

theorem validateDoc_sound (v : YVal) (sc : Script)
    (h : validateDoc v = some sc) : validScript sc := by
  cases v with
  | vmap m =>
    simp only [validateDoc] at h
    split at h
    · split at h
      · split at h
        · split at h
          · split at h
            · rename_i hr
              split at h
              · rename_i l hsv
                split at h
                · exact Option.noConfusion h
                · rename_i hne
                  split at h
                  · rename_i seq hval
                    cases h
                    have hs := validateSeq_sound _ seq hval
                    refine ⟨hr, ?_, hs.2⟩
                    intro hemp
                    have hemp2 : seq = [] := hemp
                    rw [hemp2] at hs
                    have hl : l = [] := List.length_eq_zero.mp (by simp [← hs.1])
                    rw [hl] at hne
                    simp at hne
                  · exact Option.noConfusion h
              · exact Option.noConfusion h
            · exact Option.noConfusion h
          · exact Option.noConfusion h
        · exact Option.noConfusion h
      · exact Option.noConfusion h
    · exact Option.noConfusion h
  | vnull => exact Option.noConfusion h
  | vbool b => exact Option.noConfusion h
  | vint n => exact Option.noConfusion h
  | vfloat q => exact Option.noConfusion h
  | vstr s => exact Option.noConfusion h
  | vlist l => exact Option.noConfusion h

/-- Claim C4 (the code deviates for non-mapping documents): evaluating
`parse_script` at the loaded document `5` — a valid YAML document whose top
level is not a mapping — raises an uncaught `TypeError` from
`"version" not in output` instead of `ParseError`; for every mapping
document, however, `parse_script` either returns a validated script (positive
repeats, non-empty sequence of entries with valid angles and positive
measurement counts) or raises the single `ParseError`, with no partial
result. -/
theorem parse_script_error_taxonomy :
    parse_script (.vint 5) = .error .typeError ∧
    ∀ m : List (String × YVal),
      (∃ sc, parse_script (.vmap m) = .ok sc ∧ validScript sc) ∨
      parse_script (.vmap m) = .error .parseError := by
  refine ⟨rfl, ?_⟩
  intro m
  cases hv : m.any fun kv => kv.1 == "version" with
  | true =>
    cases hd : validateDoc (.vmap m) with
    | some sc =>
      exact Or.inl ⟨sc, by simp [parse_script, hasVersionKey, hv, hd],
        validateDoc_sound _ sc hd⟩
    | none =>
      exact Or.inr (by simp [parse_script, hasVersionKey, hv, hd])
  | false =>
    cases hd : validateDoc (.vmap (m ++ [("version", .vint 1)])) with
    | some sc =>
      exact Or.inl ⟨sc,
        by simp [parse_script, hasVersionKey, hv, setVersionKey, hd],
        validateDoc_sound _ sc hd⟩
    | none =>
      exact Or.inr
        (by simp [parse_script, hasVersionKey, hv, setVersionKey, hd])

/-- `dataclasses.asdict` applied to a `Measurement`, as used when
`ScriptEditDialog._try_save` serializes the sequence. -/
def Measurement.asdict (mm : Measurement) : YVal :=
  .vmap [("angle",
            match mm.angle with
            | .num q => .vfloat q
            | .preset s => .vstr s),
         ("measurements", .vint mm.measurements)]

/-- The document `ScriptEditDialog._try_save` writes for a script: version
tag, repeats and the sequence of `asdict` entries (the YAML dump/load pair is
value-preserving and modelled as the identity on documents). -/
def Script.toDoc (sc : Script) : YVal :=
  .vmap [("version", .vint 1), ("repeats", .vint sc.repeats),
         ("sequence", .vlist (sc.sequence.map Measurement.asdict))]

theorem validMeasurement_roundtrip (mm : Measurement)
    (h1 : 0 < mm.measurements) (h2 : validAngleValue mm.angle) :
    validMeasurement (Measurement.asdict mm) = some mm := by
  rcases mm with ⟨a, n⟩
  cases a with
  | num q =>
    have hq : 0 ≤ q ∧ q < 360 := h2
    simp [Measurement.asdict, validMeasurement, keysExactly, validAngle,
      asPyInt, hq, h1, List.lookup]
  | preset s =>
    have hs : s ∈ ANGLE_PRESETS := h2
    simp [Measurement.asdict, validMeasurement, keysExactly, validAngle,
      asPyInt, hs, h1, List.lookup]

theorem validateSeq_roundtrip (l : List Measurement)
    (h : ∀ mm ∈ l, 0 < mm.measurements ∧ validAngleValue mm.angle) :
    validateSeq (l.map Measurement.asdict) = some l := by
  induction l with
  | nil => rfl
  | cons mm rest ih =>
    have h1 := h mm (by simp)
    simp [validateSeq, validMeasurement_roundtrip mm h1.1 h1.2,
      ih fun x hx => h x (by simp [hx])]

/-- Claim C7: serializing a valid `Script` to the document format and
re-parsing it with `parse_script` yields a script with equal `repeats` and an
equal ordered `sequence` of measurements. -/
theorem script_document_roundtrip (sc : Script) (h : validScript sc) :
    parse_script (Script.toDoc sc) = .ok sc := by
  obtain ⟨hr, hs, hmm⟩ := h
  rcases sc with ⟨r, l⟩
  rcases l with _ | ⟨mm0, rest⟩
  · exact absurd rfl hs
  have hseq : validateSeq (mm0.asdict :: List.map Measurement.asdict rest) =
      some (mm0 :: rest) := validateSeq_roundtrip (mm0 :: rest) hmm
  simp [parse_script, Script.toDoc, hasVersionKey, setVersionKey, validateDoc,
    keysExactly, versionConstOK, asPyInt, List.lookup, hr, hseq]

/-- Witness for C7 at a concrete two-step script mixing a numeric angle and a
preset name. -/
theorem script_document_roundtrip_witness :
    parse_script (Script.toDoc ⟨2, [⟨.num 0, 1⟩, ⟨.preset "zenith", 2⟩]⟩) =
      .ok ⟨2, [⟨.num 0, 1⟩, ⟨.preset "zenith", 2⟩]⟩ :=
  script_document_roundtrip ⟨2, [⟨.num 0, 1⟩, ⟨.preset "zenith", 2⟩]⟩
    (by decide)

/-- Modelled from the spec: `DeviceInstanceRef` lives in `frog/device_info.py`,
which is not in the source tree — per the spec it identifies a hardware
endpoint by base-type name plus an optional disambiguating instance name, and
its string form (used in topic names) joins the two. -/
structure DeviceInstanceRef where
  base_type : String
  name : Option String
  deriving DecidableEq

/-- The string form of an instance reference as interpolated into topic
names. -/
def DeviceInstanceRef.topicStr (r : DeviceInstanceRef) : String :=
  match r.name with
  | none => r.base_type
  | some n => r.base_type ++ "." ++ n

/-- The state of a `Device` (`frog/hardware/device.py`) relevant to opening
and message handling: its base-type name, optional instance name, the topics
of the wrapped handlers queued in `_subscriptions`, and the `_is_open`
flag. -/
structure Device where
  base_name : String
  name : Option String
  subscriptions : List String
  is_open : Bool
  deriving DecidableEq

/-- `Device.get_instance_ref`. -/
def Device.get_instance_ref (d : Device) : DeviceInstanceRef :=
  ⟨d.base_name, d.name⟩

/-- `self.topic` as set up by `Device.__init__`: `device.{base}` with the
instance name appended when present. -/
def Device.topic (d : Device) : String :=
  match d.name with
  | none => "device." ++ d.base_name
  | some n => "device." ++ d.base_name ++ "." ++ n

/-- Effects emitted by the wrapped message handlers: an error notification on
`device.error.{instance}` carrying the instance reference and the error, or
an ordinary message on a topic. -/
inductive HandlerEffect (E : Type) where
  | sendError (topic : String) (inst : DeviceInstanceRef) (error : E)
  | send (topic : String)

/-- `Device.send_error_message`: log, then publish the error on
`device.error.{instance}` with the instance reference and the error as
payload. -/
def Device.send_error_message (d : Device) {E : Type} (error : E) :
    List (HandlerEffect E) :=
  [.sendError ("device.error." ++ d.get_instance_ref.topicStr)
    d.get_instance_ref error]

/-- `AbstractDevice.pubsub_errors`: wrap a handler so that any exception it
raises is caught and re-emitted with `send_error_message`.  The handler is
modelled as returning `Except E β`; the wrapper's own result is an `Except`
too, so that `.ok` states that nothing propagates to the caller. -/
def Device.pubsub_errors (d : Device) {α β E : Type} (f : α → Except E β) :
    α → Except E (List (HandlerEffect E)) :=
  fun a =>
    match f a with
    | .ok _ => .ok []
    | .error e => .ok (d.send_error_message e)

/-- `AbstractDevice.pubsub_broadcast`: wrap a handler so that on success a
message is sent on `{topic}.{success_topic_suffix}` (the returned values
become its payload, abstracted here) and on failure the error is re-emitted
with `send_error_message`. -/
def Device.pubsub_broadcast (d : Device) {α β E : Type} (f : α → Except E β)
    (success_topic_suffix : String) :
    α → Except E (List (HandlerEffect E)) :=
  fun a =>
    match f a with
    | .ok _ => .ok [.send (d.topic ++ "." ++ success_topic_suffix)]
    | .error e => .ok (d.send_error_message e)

/-- The wrapping performed by `Device.subscribe`: `pubsub_broadcast` when a
non-empty `success_topic_suffix` is given (Python truthiness: an empty string
counts as absent), else `pubsub_errors`. -/
def Device.subscribe_wrapped (d : Device) {α β E : Type} (f : α → Except E β)
    (success_topic_suffix : Option String) :
    α → Except E (List (HandlerEffect E)) :=
  match success_topic_suffix with
  | some t => if t.isEmpty then d.pubsub_errors f else d.pubsub_broadcast f t
  | none => d.pubsub_errors f

/-- Claim C8: for every handler registered through `Device.subscribe` (with or
without a success topic) and every inbound request on which the wrapped
handler raises, the exception is caught at the device boundary and re-emitted
as exactly one error notification on `device.error.{instance}` addressed with
that device's instance reference; the wrapper returns normally, never
propagating the exception to its caller. -/
theorem subscribe_errors_contained (d : Device) {α β E : Type}
    (f : α → Except E β) (success_topic_suffix : Option String) (a : α) (e : E)
    (hf : f a = .error e) :
    d.subscribe_wrapped f success_topic_suffix a =
      .ok [.sendError ("device.error." ++ d.get_instance_ref.topicStr)
        d.get_instance_ref e] := by
  cases success_topic_suffix with
  | none =>
    simp [Device.subscribe_wrapped, Device.pubsub_errors, hf,
      Device.send_error_message]
  | some t =>
    by_cases ht : t.isEmpty <;>
      simp [Device.subscribe_wrapped, ht, Device.pubsub_errors,
        Device.pubsub_broadcast, hf, Device.send_error_message]

/-- Witness for C8: a handler that always raises, registered on a named
stepper-motor device. -/
theorem subscribe_errors_contained_witness :
    Device.subscribe_wrapped ⟨"stepper_motor", none, [], true⟩
        (fun _ : Unit => (Except.error "boom" : Except String Unit))
        (some "move.end") () =
      .ok [.sendError ("device.error." ++
          (Device.get_instance_ref
            ⟨"stepper_motor", none, [], true⟩).topicStr)
        (Device.get_instance_ref ⟨"stepper_motor", none, [], true⟩) "boom"] :=
  subscribe_errors_contained ⟨"stepper_motor", none, [], true⟩
    (fun _ : Unit => (Except.error "boom" : Except String Unit))
    (some "move.end") () "boom" rfl

/-- The fatal logical error raised by `signal_is_opened` on a device that is
already open (`RuntimeError("Device is already open")`). -/
inductive DeviceFatal where
  | alreadyOpen
  deriving DecidableEq

/-- Effects emitted by `Device.signal_is_opened`: activating a deferred
subscription, and the two notifications, `device.after_opening.{instance}`
(for listeners that must run setup first) followed by
`device.opened.{instance}`, both tagged with the instance reference. -/
inductive OpenEffect where
  | subscribeTopic (topic : String)
  | afterOpening (inst : DeviceInstanceRef)
  | opened (inst : DeviceInstanceRef)
  deriving DecidableEq

/-- `Device.signal_is_opened`: raise if already open, else mark open,
activate the deferred subscriptions, then send the two "opened"
notifications in order. -/
def Device.signal_is_opened (d : Device) :
    Except DeviceFatal (Device × List OpenEffect) :=
  if d.is_open then .error .alreadyOpen
  else
    .ok ({ d with is_open := true },
      d.subscriptions.map OpenEffect.subscribeTopic ++
        [.afterOpening d.get_instance_ref, .opened d.get_instance_ref])

/-- The pubsub notifications among the open effects (subscription activations
are not notifications). -/
def openNotifications (es : List OpenEffect) : List OpenEffect :=
  es.filter fun e =>
    match e with
    | .subscribeTopic _ => false
    | _ => true

theorem openNotifications_subs_append (l : List String) (r : List OpenEffect) :
    openNotifications (l.map OpenEffect.subscribeTopic ++ r) =
      openNotifications r := by
  induction l with
  | nil => rfl
  | cons t rest ih => simpa [openNotifications] using ih

/-- Claim C9: on a device that has not finished opening, `signal_is_opened`
emits exactly two notifications in fixed order — `device.after_opening` then
`device.opened`, both tagged with the device's instance reference — and
calling `signal_is_opened` a second time on the resulting device raises the
fatal already-open error instead of emitting notifications. -/
theorem signal_is_opened_two_notifications (d : Device)
    (h : d.is_open = false) :
    ∃ d2 es, d.signal_is_opened = .ok (d2, es) ∧
      openNotifications es =
        [.afterOpening d.get_instance_ref, .opened d.get_instance_ref] ∧
      d2.signal_is_opened = .error .alreadyOpen := by
  refine ⟨{ d with is_open := true },
    d.subscriptions.map OpenEffect.subscribeTopic ++
      [.afterOpening d.get_instance_ref, .opened d.get_instance_ref],
    ?_, ?_, ?_⟩
  · simp [Device.signal_is_opened, h]
  · simp [openNotifications_subs_append, openNotifications]
  · simp [Device.signal_is_opened]

/-- Witness for C9 on a concrete closed device with one pending
subscription. -/
theorem signal_is_opened_two_notifications_witness :
    ∃ d2 es,
      Device.signal_is_opened
          ⟨"spectrometer", none, ["device.spectrometer.request"], false⟩ =
        .ok (d2, es) ∧
      openNotifications es =
        [.afterOpening (Device.get_instance_ref
            ⟨"spectrometer", none, ["device.spectrometer.request"], false⟩),
         .opened (Device.get_instance_ref
            ⟨"spectrometer", none, ["device.spectrometer.request"], false⟩)] ∧
      d2.signal_is_opened = .error .alreadyOpen :=
  signal_is_opened_two_notifications
    ⟨"spectrometer", none, ["device.spectrometer.request"], false⟩ rfl
